import Mathlib

/-!
Shallow embedding of lib/charms/comsys_libs/v0/kubernetes_statefulset_patch.py,
the KubernetesStatefulsetPatch library: an event-driven reconciler that patches
one Kubernetes StatefulSet resource limits/requests and deletes it on removal.

The embedding models the handlers of the class: the building of
ResourceRequirements, the drift check, the reconcile loop and the teardown,
with the Kubernetes API calls made explicit inputs and outputs (the GET
result is an input, the issued PATCH calls are data in the outcome).
-/

set_option autoImplicit false

namespace KSP

/-- A Python value appearing as a resource quantity in a desired spec or a
live object: either a string in Kubernetes quantity syntax such as "1Gi"
or "2", or an integer, since cpu may be supplied as a number. -/
inductive RVal where
  | s (v : String)
  | n (v : Int)
deriving DecidableEq

/-- Python str applied to a resource value: strings pass through, integers
render in decimal. -/
def RVal.pyStr : RVal → String
  | .s v => v
  | .n v => toString v

/-- Python str applied to the result of dict.get: crucially, str of
Python None is the string "None". This models the expression
str of resources.get at line 224 of the source. -/
def pyStrOpt : Option RVal → String
  | none => "None"
  | some v => v.pyStr

/-- Python dict.get with default None, on a dictionary modelled as an
association list with first-match lookup. -/
def dictGet {β : Type} (k : String) : List (String × β) → Option β
  | [] => none
  | (q, v) :: es => if k = q then some v else dictGet k es

/-- A limits or requests dictionary of a container: resource name to
quantity. -/
abbrev QMap := List (String × RVal)

/-- A desired per-container resource spec, e.g. memory 1Gi and cpu 1;
the program only reads the keys "memory" and "cpu". -/
abbrev SpecMap := List (String × RVal)

/-- The resource_updates argument: container name to desired spec. -/
abbrev RUpdates := List (String × SpecMap)

/-- lightkube ResourceRequirements as the program sees it: the limits and
requests dictionaries, each possibly absent (Python None). -/
structure ResourceRequirements where
  limits : Option QMap
  requests : Option QMap
deriving DecidableEq

/-- A container of the live StatefulSet pod template: its name and its
resources field, which may be absent (Python None) on a live object. -/
structure Container where
  name : String
  resources : Option ResourceRequirements
deriving DecidableEq

/-- The live StatefulSet, reduced to the only part the program touches:
spec.template.spec.containers. -/
structure StatefulSet where
  containers : List Container
deriving DecidableEq

/-- The errors the handlers can raise: lightkube ApiError with its status
code, lightkube ConfigError from Client construction, and the Python
AttributeError raised by reading the limits attribute of a None
resources field. -/
inductive KError where
  | apiError (code : Nat)
  | configError
  | attributeError
deriving DecidableEq

/-- _build_resource_requirements (source lines 151-167): builds limits and
requests from the desired spec; a memory value passes through as-is, a
cpu value is coerced with str; both dictionaries receive the identical
assignments, memory first then cpu. -/
def buildResourceRequirements (resources : SpecMap) : ResourceRequirements :=
  let memoryVal := dictGet "memory" resources
  let cpuVal := dictGet "cpu" resources
  let limits : QMap :=
    (match memoryVal with | some v => [("memory", v)] | none => []) ++
    (match cpuVal with | some v => [("cpu", RVal.s v.pyStr)] | none => [])
  let requests : QMap :=
    (match memoryVal with | some v => [("memory", v)] | none => []) ++
    (match cpuVal with | some v => [("cpu", RVal.s v.pyStr)] | none => [])
  { limits := some limits, requests := some requests }

/-- The is_memory_patched expression of _is_patched (source lines 227-230):
the current limits and requests entries for "memory" must both equal
resources.get applied to "memory"; when the spec has no memory key the
desired value is Python None, so the check demands the live key be
absent. -/
def isMemoryPatched (currentLimits currentRequests : QMap) (resources : SpecMap) : Bool :=
  let desiredMemory := dictGet "memory" resources
  decide (dictGet "memory" currentLimits = desiredMemory) &&
  decide (dictGet "memory" currentRequests = desiredMemory)

/-- The is_cpu_patched expression of _is_patched (source lines 231-233):
the current limits and requests entries for "cpu" must both equal the
string produced by str of resources.get applied to "cpu"; when the
spec has no cpu key that string is "None", which an absent live key
never equals. -/
def isCpuPatched (currentLimits currentRequests : QMap) (resources : SpecMap) : Bool :=
  let desiredCpu := pyStrOpt (dictGet "cpu" resources)
  decide (dictGet "cpu" currentLimits = some (RVal.s desiredCpu)) &&
  decide (dictGet "cpu" currentRequests = some (RVal.s desiredCpu))

/-- _is_patched (source lines 208-236): reads container.resources.limits
and container.resources.requests, raising AttributeError when the
resources field is None; an absent limits or requests dictionary
defaults to empty via the Python or-operator; then both per-key checks
must pass. -/
def isPatched (container : Container) (resources : SpecMap) : Except KError Bool :=
  match container.resources with
  | none => Except.error KError.attributeError
  | some rr =>
    let currentLimits := rr.limits.getD []
    let currentRequests := rr.requests.getD []
    Except.ok (isMemoryPatched currentLimits currentRequests resources &&
               isCpuPatched currentLimits currentRequests resources)

/-- The container loop of _patch_statefulset (source lines 181-187): visit
containers in order; a container whose name is not a key of
resource_updates is skipped; one that _is_patched reports as matching
is skipped; otherwise its resources field is replaced wholesale with
the built requirements and needs_patching is set. An exception aborts
the whole handler. Returns the mutated container list and the flag. -/
def processContainers (updates : RUpdates) : List Container → Except KError (List Container × Bool)
  | [] => Except.ok ([], false)
  | c :: cs =>
    match dictGet c.name updates with
    | none =>
      match processContainers updates cs with
      | Except.error e => Except.error e
      | Except.ok (rest, dirty) => Except.ok (c :: rest, dirty)
    | some resources =>
      match isPatched c resources with
      | Except.error e => Except.error e
      | Except.ok true =>
        match processContainers updates cs with
        | Except.error e => Except.error e
        | Except.ok (rest, dirty) => Except.ok (c :: rest, dirty)
      | Except.ok false =>
        match processContainers updates cs with
        | Except.error e => Except.error e
        | Except.ok (rest, _) =>
          Except.ok ({ c with resources := some (buildResourceRequirements resources) } :: rest,
                     true)

/-- The outcome of the initial GET of the live StatefulSet: the object, or
an error from Client construction or from the GET itself. -/
inductive GetResult where
  | ok (s : StatefulSet)
  | err (e : KError)
deriving DecidableEq

/-- Observable outcome of one _patch_statefulset invocation: the raised
error if any, and the list of PATCH calls issued, each carrying the
complete object submitted with the merge strategy. -/
structure PatchOutcome where
  result : Except KError Unit
  patchCalls : List StatefulSet

/-- _patch_statefulset (source lines 169-206): fetch the live object; on a
GET failure nothing further happens and the error propagates; otherwise
run the container loop, and issue exactly one merge PATCH with the
complete mutated object when needs_patching was set, else no write. -/
def patchStatefulset (updates : RUpdates) (get : GetResult) : PatchOutcome :=
  match get with
  | GetResult.err e => { result := Except.error e, patchCalls := [] }
  | GetResult.ok s =>
    match processContainers updates s.containers with
    | Except.error e => { result := Except.error e, patchCalls := [] }
    | Except.ok (cs, dirty) =>
      if dirty then
        { result := Except.ok (), patchCalls := [{ containers := cs }] }
      else
        { result := Except.ok (), patchCalls := [] }

/-- Two reconcile invocations in a row with no external change in between:
the second GET returns exactly the object submitted by the first PATCH
when one was issued, and the original object otherwise. -/
def reconcileTwice (updates : RUpdates) (s0 : StatefulSet) : PatchOutcome × PatchOutcome :=
  let o1 := patchStatefulset updates (GetResult.ok s0)
  let s1 := match o1.patchCalls with
    | [obj] => obj
    | _ => s0
  (o1, patchStatefulset updates (GetResult.ok s1))

/-- The outcome of the DELETE call made by teardown: success, or an
ApiError carrying its HTTP status code. -/
inductive DeleteResult where
  | ok
  | apiError (code : Nat)
deriving DecidableEq

/-- _remove_statefulset (source lines 238-261): delete the object; an
ApiError with status code 404 is swallowed and the handler returns
normally; any other ApiError re-raises. The handler reads no reconcile
state: its only input is the DELETE outcome. -/
def removeStatefulset (delete : DeleteResult) : Except KError Unit :=
  match delete with
  | DeleteResult.ok => Except.ok ()
  | DeleteResult.apiError code =>
    if code = 404 then Except.ok () else Except.error (KError.apiError code)

/-- How the container loop relates a visited container to its image in the
mutated list: skipped because unmanaged, skipped because the drift
check passed, or rewritten with the built requirements. -/
def containerStep (updates : RUpdates) (c cOut : Container) : Prop :=
  (dictGet c.name updates = none ∧ cOut = c) ∨
  (∃ spec, dictGet c.name updates = some spec ∧ isPatched c spec = Except.ok true ∧ cOut = c) ∨
  (∃ spec, dictGet c.name updates = some spec ∧ isPatched c spec = Except.ok false ∧
    cOut = { c with resources := some (buildResourceRequirements spec) })

/-- Desired resources for the idempotence scenario: memory only, no cpu
key, for the single container named c. -/
def c1Updates : RUpdates := [("c", [("memory", RVal.s "1Gi")])]

/-- Live object for the idempotence scenario: one container named c with
empty limits and requests. -/
def c1Live : StatefulSet :=
  { containers := [{ name := "c", resources := some { limits := some [], requests := some [] } }] }

/-- The object the first reconcile submits in its PATCH: memory set in
both limits and requests, no cpu key. -/
def c1Patched : StatefulSet :=
  { containers :=
      [{ name := "c",
         resources := some { limits := some [("memory", RVal.s "1Gi")],
                             requests := some [("memory", RVal.s "1Gi")] } }] }

/-- Desired spec for the per-key drift scenario: memory only. -/
def c2Spec : SpecMap := [("memory", RVal.s "1Gi")]

/-- Live limits and requests for the per-key drift scenario: memory
matches the desired value exactly, and a cpu value 2 is present. -/
def c2Live : QMap := [("memory", RVal.s "1Gi"), ("cpu", RVal.s "2")]

/-- Live container for the per-key drift scenario. -/
def c2Container : Container :=
  { name := "c", resources := some { limits := some c2Live, requests := some c2Live } }

/-- Desired resources for the no-drift witness scenario: cpu 1 for the
container named c. -/
def c3Updates : RUpdates := [("c", [("cpu", RVal.n 1)])]

/-- Live object for the no-drift witness scenario: the container already
carries cpu 1 as a string in both limits and requests. -/
def c3Live : StatefulSet :=
  { containers :=
      [{ name := "c",
         resources := some { limits := some [("cpu", RVal.s "1")],
                             requests := some [("cpu", RVal.s "1")] } }] }

/-- Desired resources for the frame-condition witness: container a only. -/
def c4Updates : RUpdates := [("a", [("cpu", RVal.n 2)])]

/-- Container a of the frame-condition witness: drifted, cpu absent. -/
def c4A : Container :=
  { name := "a", resources := some { limits := some [], requests := some [] } }

/-- Container b of the frame-condition witness: unmanaged, with its own
resource state. -/
def c4B : Container :=
  { name := "b", resources := some { limits := some [("memory", RVal.s "2Gi")],
                                     requests := some [("memory", RVal.s "2Gi")] } }

/-- Container a after the loop rewrote it: cpu 2 in both dictionaries. -/
def c4AOut : Container :=
  { name := "a", resources := some { limits := some [("cpu", RVal.s "2")],
                                     requests := some [("cpu", RVal.s "2")] } }

/-- Desired spec for the write-invariant witness: memory and cpu. -/
def c6Spec : SpecMap := [("memory", RVal.s "1Gi"), ("cpu", RVal.n 6)]

/-- Desired spec for the cpu-coercion witness: memory 1Gi and numeric
cpu 1. -/
def c5Spec : SpecMap := [("memory", RVal.s "1Gi"), ("cpu", RVal.n 1)]

/-- Live limits and requests for the cpu-coercion witness: the cpu value
is the quantity string 1. -/
def c5Limits : QMap := [("memory", RVal.s "1Gi"), ("cpu", RVal.s "1")]

/-- The container loop relates the visited containers to the mutated list
pointwise by containerStep. -/
theorem processContainers_forall₂ (updates : RUpdates) :
    ∀ (l cs : List Container) (dirty : Bool),
      processContainers updates l = Except.ok (cs, dirty) →
      List.Forall₂ (containerStep updates) l cs := by
  intro l
  induction l with
  | nil =>
    intro cs dirty h
    simp only [processContainers, Except.ok.injEq, Prod.mk.injEq] at h
    obtain ⟨h1, h2⟩ := h
    subst h1
    exact List.Forall₂.nil
  | cons c cs ih =>
    intro cs' dirty h
    cases hl : dictGet c.name updates with
    | none =>
      simp only [processContainers, hl] at h
      cases hrec : processContainers updates cs with
      | error e => simp [hrec] at h
      | ok p =>
        obtain ⟨rest, d⟩ := p
        simp only [hrec, Except.ok.injEq, Prod.mk.injEq] at h
        obtain ⟨h1, h2⟩ := h
        subst h1
        exact List.Forall₂.cons (Or.inl ⟨hl, rfl⟩) (ih rest d hrec)
    | some spec0 =>
      simp only [processContainers, hl] at h
      cases hp : isPatched c spec0 with
      | error e => simp [hp] at h
      | ok b =>
        cases b with
        | true =>
          simp only [hp] at h
          cases hrec : processContainers updates cs with
          | error e => simp [hrec] at h
          | ok p =>
            obtain ⟨rest, d⟩ := p
            simp only [hrec, Except.ok.injEq, Prod.mk.injEq] at h
            obtain ⟨h1, h2⟩ := h
            subst h1
            exact List.Forall₂.cons (Or.inr (Or.inl ⟨spec0, hl, hp, rfl⟩)) (ih rest d hrec)
        | false =>
          simp only [hp] at h
          cases hrec : processContainers updates cs with
          | error e => simp [hrec] at h
          | ok p =>
            obtain ⟨rest, d⟩ := p
            simp only [hrec, Except.ok.injEq, Prod.mk.injEq] at h
            obtain ⟨h1, h2⟩ := h
            subst h1
            exact List.Forall₂.cons (Or.inr (Or.inr ⟨spec0, hl, hp, rfl⟩)) (ih rest d hrec)

/-- The needs_patching flag is set exactly when some visited managed
container fails the drift check. -/
theorem processContainers_dirty_iff (updates : RUpdates) :
    ∀ (l cs : List Container) (dirty : Bool),
      processContainers updates l = Except.ok (cs, dirty) →
      (dirty = true ↔ ∃ c ∈ l, ∃ spec, dictGet c.name updates = some spec ∧
        isPatched c spec = Except.ok false) := by
  intro l
  induction l with
  | nil =>
    intro cs dirty h
    simp only [processContainers, Except.ok.injEq, Prod.mk.injEq] at h
    obtain ⟨h1, h2⟩ := h
    subst h2
    simp
  | cons c cs ih =>
    intro cs' dirty h
    cases hl : dictGet c.name updates with
    | none =>
      simp only [processContainers, hl] at h
      cases hrec : processContainers updates cs with
      | error e => simp [hrec] at h
      | ok p =>
        obtain ⟨rest, d⟩ := p
        simp only [hrec, Except.ok.injEq, Prod.mk.injEq] at h
        obtain ⟨h1, h2⟩ := h
        subst h2
        constructor
        · intro hd
          obtain ⟨c0, hmem, spec, hspec, hfail⟩ := (ih rest d hrec).mp hd
          exact ⟨c0, List.mem_cons_of_mem _ hmem, spec, hspec, hfail⟩
        · rintro ⟨c0, hmem, spec, hspec, hfail⟩
          rcases List.mem_cons.mp hmem with hc0 | hmem'
          · subst hc0
            rw [hl] at hspec
            exact Option.noConfusion hspec
          · exact (ih rest d hrec).mpr ⟨c0, hmem', spec, hspec, hfail⟩
    | some spec0 =>
      simp only [processContainers, hl] at h
      cases hp : isPatched c spec0 with
      | error e => simp [hp] at h
      | ok b =>
        cases b with
        | true =>
          simp only [hp] at h
          cases hrec : processContainers updates cs with
          | error e => simp [hrec] at h
          | ok p =>
            obtain ⟨rest, d⟩ := p
            simp only [hrec, Except.ok.injEq, Prod.mk.injEq] at h
            obtain ⟨h1, h2⟩ := h
            subst h2
            constructor
            · intro hd
              obtain ⟨c0, hmem, spec, hspec, hfail⟩ := (ih rest d hrec).mp hd
              exact ⟨c0, List.mem_cons_of_mem _ hmem, spec, hspec, hfail⟩
            · rintro ⟨c0, hmem, spec, hspec, hfail⟩
              rcases List.mem_cons.mp hmem with hc0 | hmem'
              · subst hc0
                rw [hl] at hspec
                obtain rfl := Option.some.inj hspec
                exact Bool.noConfusion (Except.ok.inj (hp.symm.trans hfail))
              · exact (ih rest d hrec).mpr ⟨c0, hmem', spec, hspec, hfail⟩
        | false =>
          simp only [hp] at h
          cases hrec : processContainers updates cs with
          | error e => simp [hrec] at h
          | ok p =>
            obtain ⟨rest, d⟩ := p
            simp only [hrec, Except.ok.injEq, Prod.mk.injEq] at h
            obtain ⟨h1, h2⟩ := h
            subst h2
            constructor
            · intro _
              exact ⟨c, List.mem_cons_self c cs, spec0, hl, hp⟩
            · intro _
              rfl

/-- Claim C3: for every reconcile invocation whose container loop
completes, the invocation issues exactly one merge PATCH carrying the
complete mutated object when at least one managed container fails the
drift check, and no PATCH at all when every managed container passes
it. -/
theorem patch_iff_some_container_drifts (updates : RUpdates) (s : StatefulSet)
    (cs : List Container) (dirty : Bool)
    (h : processContainers updates s.containers = Except.ok (cs, dirty)) :
    patchStatefulset updates (GetResult.ok s) =
      (if dirty then { result := Except.ok (), patchCalls := [{ containers := cs }] }
       else { result := Except.ok (), patchCalls := [] }) ∧
    (dirty = true ↔ ∃ c ∈ s.containers, ∃ spec, dictGet c.name updates = some spec ∧
      isPatched c spec = Except.ok false) := by
  refine ⟨?_, processContainers_dirty_iff updates s.containers cs dirty h⟩
  simp only [patchStatefulset, h]

/-- Witness for the claim C3 theorem at a concrete no-drift input: the
live container already matches, so no PATCH is issued. -/
theorem patch_iff_some_container_drifts_witness :
    patchStatefulset c3Updates (GetResult.ok c3Live) =
      { result := Except.ok (), patchCalls := [] } ∧
    (false = true ↔ ∃ c ∈ c3Live.containers, ∃ spec, dictGet c.name c3Updates = some spec ∧
      isPatched c spec = Except.ok false) := by
  have h := patch_iff_some_container_drifts c3Updates c3Live c3Live.containers false rfl
  exact ⟨h.1, h.2⟩

/-- Claim C4: frame condition of the container loop — a container whose
name is not a key of the desired mapping is returned unchanged, a
managed container that passes the drift check is returned unchanged,
and only a managed container failing the check is rewritten, exactly
to the built requirements. -/
theorem loop_frame_condition (updates : RUpdates) (l cs : List Container) (dirty : Bool)
    (h : processContainers updates l = Except.ok (cs, dirty)) :
    List.Forall₂ (fun c cOut =>
      (dictGet c.name updates = none → cOut = c) ∧
      (∀ spec, dictGet c.name updates = some spec →
        (isPatched c spec = Except.ok true → cOut = c) ∧
        (isPatched c spec = Except.ok false →
          cOut = { c with resources := some (buildResourceRequirements spec) }))) l cs := by
  refine List.Forall₂.imp ?_ (processContainers_forall₂ updates l cs dirty h)
  intro c cOut hstep
  rcases hstep with ⟨hn, rfl⟩ | ⟨spec0, hs, hp, rfl⟩ | ⟨spec0, hs, hp, rfl⟩
  · refine ⟨fun _ => rfl, ?_⟩
    intro spec hspec
    rw [hn] at hspec
    exact Option.noConfusion hspec
  · refine ⟨fun _ => rfl, ?_⟩
    intro spec hspec
    rw [hs] at hspec
    obtain rfl := Option.some.inj hspec
    exact ⟨fun _ => rfl, fun hf => Bool.noConfusion (Except.ok.inj (hp.symm.trans hf))⟩
  · refine ⟨?_, ?_⟩
    · intro hnone
      rw [hs] at hnone
      exact Option.noConfusion hnone
    · intro spec hspec
      rw [hs] at hspec
      obtain rfl := Option.some.inj hspec
      exact ⟨fun ht => Bool.noConfusion (Except.ok.inj (hp.symm.trans ht)), fun _ => rfl⟩

/-- Witness for the claim C4 theorem at a concrete two-container input:
managed container a is rewritten, unmanaged container b is untouched. -/
theorem loop_frame_condition_witness :
    List.Forall₂ (fun c cOut =>
      (dictGet c.name c4Updates = none → cOut = c) ∧
      (∀ spec, dictGet c.name c4Updates = some spec →
        (isPatched c spec = Except.ok true → cOut = c) ∧
        (isPatched c spec = Except.ok false →
          cOut = { c with resources := some (buildResourceRequirements spec) })))
      [c4A, c4B] [c4AOut, c4B] :=
  loop_frame_condition c4Updates [c4A, c4B] [c4AOut, c4B] true rfl

/-- Claim C6: write invariant — the built requirements set limits and
requests pointwise equal, erase every key not derived from the desired
spec, and each output container of the loop is either untouched or has
its resource state wholly replaced by the built requirements. -/
theorem write_invariant (spec : SpecMap) :
    (∀ k, dictGet k ((buildResourceRequirements spec).limits.getD []) =
          dictGet k ((buildResourceRequirements spec).requests.getD [])) ∧
    (∀ k, k ≠ "memory" → k ≠ "cpu" →
          dictGet k ((buildResourceRequirements spec).limits.getD []) = none) ∧
    (∀ (updates : RUpdates) (l cs : List Container) (dirty : Bool),
        processContainers updates l = Except.ok (cs, dirty) →
        List.Forall₂ (fun c cOut => cOut = c ∨ ∃ sp, dictGet c.name updates = some sp ∧
          cOut = { c with resources := some (buildResourceRequirements sp) }) l cs) := by
  refine ⟨fun k => rfl, ?_, ?_⟩
  · intro k hk1 hk2
    cases hm : dictGet "memory" spec <;> cases hc : dictGet "cpu" spec <;>
      simp [buildResourceRequirements, hm, hc, dictGet, hk1, hk2]
  · intro updates l cs dirty h
    refine List.Forall₂.imp ?_ (processContainers_forall₂ updates l cs dirty h)
    intro c cOut hstep
    rcases hstep with ⟨hn, rfl⟩ | ⟨sp, hs, hp, rfl⟩ | ⟨sp, hs, hp, rfl⟩
    · exact Or.inl rfl
    · exact Or.inl rfl
    · exact Or.inr ⟨sp, hs, rfl⟩

/-- Witness for the claim C6 theorem: an undesired key is erased, limits
and requests agree on it, and a concrete loop run only rewrites the
managed container. -/
theorem write_invariant_witness :
    dictGet "hugepages" ((buildResourceRequirements c6Spec).limits.getD []) =
      dictGet "hugepages" ((buildResourceRequirements c6Spec).requests.getD []) ∧
    dictGet "hugepages" ((buildResourceRequirements c6Spec).limits.getD []) = none ∧
    List.Forall₂ (fun c cOut => cOut = c ∨ ∃ sp, dictGet c.name c4Updates = some sp ∧
        cOut = { c with resources := some (buildResourceRequirements sp) })
      [c4A, c4B] [c4AOut, c4B] := by
  have h := write_invariant c6Spec
  exact ⟨h.1 "hugepages", h.2.1 "hugepages" (by decide) (by decide),
         h.2.2 c4Updates [c4A, c4B] [c4AOut, c4B] true rfl⟩

/-- Claim C1 is violated by the code: with desired resources specifying
only memory for container c, the first reconcile issues a PATCH and
the second reconcile, run on exactly the object the first one
submitted, issues a second PATCH instead of being a no-op — the drift
check compares the absent live cpu entry against the string "None"
produced by str of a missing key, so it fails on every invocation. -/
theorem second_reconcile_patches_again :
    (reconcileTwice c1Updates c1Live).1.patchCalls = [c1Patched] ∧
    (reconcileTwice c1Updates c1Live).2.patchCalls = [c1Patched] :=
  ⟨rfl, rfl⟩

/-- Claim C2 is violated by the code: with only memory in the desired
spec and the live memory matching exactly in both limits and requests,
the drift check still reports drift and a PATCH is issued, solely
because the live cpu value 2 is compared against the string "None"
obtained from the absent cpu key. -/
theorem absent_cpu_key_still_checked :
    isMemoryPatched c2Live c2Live c2Spec = true ∧
    isPatched c2Container c2Spec = Except.ok false ∧
    (patchStatefulset [("c", c2Spec)] (GetResult.ok { containers := [c2Container] })).patchCalls =
      [c1Patched] :=
  ⟨rfl, rfl, rfl⟩

/-- Claim C5: cpu coercion — a numeric desired cpu value is coerced to
its decimal string, the drift check then accepts exactly that string
in both live dictionaries, the built requirements carry that string in
limits and in requests, and a desired memory value passes through into
both dictionaries unchanged. -/
theorem cpu_numeric_coercion (k : Int) (spec : SpecMap) (currentLimits currentRequests : QMap)
    (hs : dictGet "cpu" spec = some (RVal.n k))
    (hl : dictGet "cpu" currentLimits = some (RVal.s (toString k)))
    (hr : dictGet "cpu" currentRequests = some (RVal.s (toString k))) :
    isCpuPatched currentLimits currentRequests spec = true ∧
    dictGet "cpu" ((buildResourceRequirements spec).limits.getD []) =
      some (RVal.s (toString k)) ∧
    dictGet "cpu" ((buildResourceRequirements spec).requests.getD []) =
      some (RVal.s (toString k)) ∧
    (∀ v, dictGet "memory" spec = some v →
      dictGet "memory" ((buildResourceRequirements spec).limits.getD []) = some v ∧
      dictGet "memory" ((buildResourceRequirements spec).requests.getD []) = some v) := by
  refine ⟨?_, ?_, ?_, ?_⟩
  · simp [isCpuPatched, hs, hl, hr, pyStrOpt, RVal.pyStr]
  · cases hm : dictGet "memory" spec <;>
      simp +decide [buildResourceRequirements, hs, hm, dictGet, RVal.pyStr]
  · cases hm : dictGet "memory" spec <;>
      simp +decide [buildResourceRequirements, hs, hm, dictGet, RVal.pyStr]
  · intro v hv
    constructor <;> simp [buildResourceRequirements, hv, dictGet]

/-- Witness for the claim C5 theorem at numeric cpu 1 against the live
quantity string 1. -/
theorem cpu_numeric_coercion_witness :
    isCpuPatched c5Limits c5Limits c5Spec = true ∧
    dictGet "cpu" ((buildResourceRequirements c5Spec).limits.getD []) =
      some (RVal.s (toString (1 : Int))) ∧
    dictGet "cpu" ((buildResourceRequirements c5Spec).requests.getD []) =
      some (RVal.s (toString (1 : Int))) ∧
    (dictGet "memory" ((buildResourceRequirements c5Spec).limits.getD []) =
      some (RVal.s "1Gi") ∧
     dictGet "memory" ((buildResourceRequirements c5Spec).requests.getD []) =
      some (RVal.s "1Gi")) := by
  have h := cpu_numeric_coercion 1 c5Spec c5Limits c5Limits rfl rfl rfl
  exact ⟨h.1, h.2.1, h.2.2.1, h.2.2.2 (RVal.s "1Gi") rfl⟩

/-- Claim C7: teardown error handling — a DELETE reporting 404 returns
normally, a DELETE reporting any other status code re-raises the
ApiError, and a successful DELETE returns normally; the handler
consults no reconcile state, its only input being the DELETE outcome. -/
theorem teardown_error_handling (code : Nat) (h : code ≠ 404) :
    removeStatefulset DeleteResult.ok = Except.ok () ∧
    removeStatefulset (DeleteResult.apiError 404) = Except.ok () ∧
    removeStatefulset (DeleteResult.apiError code) = Except.error (KError.apiError code) := by
  refine ⟨rfl, rfl, ?_⟩
  simp [removeStatefulset, h]

/-- Witness for the claim C7 theorem at status code 500. -/
theorem teardown_error_handling_witness :
    (500 : Nat) ≠ 404 ∧
    (removeStatefulset DeleteResult.ok = Except.ok () ∧
     removeStatefulset (DeleteResult.apiError 404) = Except.ok () ∧
     removeStatefulset (DeleteResult.apiError 500) = Except.error (KError.apiError 500)) :=
  ⟨by decide, teardown_error_handling 500 (by decide)⟩

/-- Claim C8: reconcile error handling — every failure of the initial GET
of the live object propagates to the caller unchanged, and in that
case the invocation issues no PATCH call at all. -/
theorem get_failure_propagates (updates : RUpdates) (e : KError) :
    patchStatefulset updates (GetResult.err e) =
      { result := Except.error e, patchCalls := [] } :=
  rfl

/-- Claim C9: empty-spec edge case — a desired spec with neither memory
nor cpu key builds an empty resource state, and a container the loop
rewrites under such a spec is written with empty limits and requests. -/
theorem empty_spec_writes_empty_state (spec : SpecMap)
    (hm : dictGet "memory" spec = none) (hc : dictGet "cpu" spec = none) :
    buildResourceRequirements spec = { limits := some [], requests := some [] } ∧
    (∀ (updates : RUpdates) (c : Container),
      dictGet c.name updates = some spec → isPatched c spec = Except.ok false →
      processContainers updates [c] =
        Except.ok ([{ c with resources := some { limits := some [], requests := some [] } }],
                   true)) := by
  have hb : buildResourceRequirements spec = { limits := some [], requests := some [] } := by
    simp [buildResourceRequirements, hm, hc]
  refine ⟨hb, ?_⟩
  intro updates c hu hp
  simp [processContainers, hu, hp, hb]

/-- Witness for the claim C9 theorem at the empty spec: the drift check
fails even on empty live dictionaries, and the loop writes the empty
resource state. -/
theorem empty_spec_writes_empty_state_witness :
    buildResourceRequirements [] = { limits := some [], requests := some [] } ∧
    processContainers [("c", [])]
        [{ name := "c", resources := some { limits := some [], requests := some [] } }] =
      Except.ok ([{ name := "c", resources := some { limits := some [], requests := some [] } }],
                 true) := by
  have h := empty_spec_writes_empty_state [] rfl rfl
  exact ⟨h.1, h.2 [("c", [])] _ rfl rfl⟩

/-- Claim C10: the drift check dereferences the resources field without a
None guard — a managed live container with no resources object at all
makes reconcile raise AttributeError instead of treating it as drift,
and the PATCH is not issued; only an absent limits or requests
dictionary inside a present resources object is tolerated, defaulting
to the empty dictionary in the comparison. -/
theorem resources_none_raises (c : Container) (spec : SpecMap) (updates : RUpdates)
    (hres : c.resources = none) (hupd : dictGet c.name updates = some spec) :
    isPatched c spec = Except.error KError.attributeError ∧
    patchStatefulset updates (GetResult.ok { containers := [c] }) =
      { result := Except.error KError.attributeError, patchCalls := [] } ∧
    (∀ cPresent : Container,
      cPresent.resources = some { limits := none, requests := none } →
      isPatched cPresent spec =
        Except.ok (isMemoryPatched [] [] spec && isCpuPatched [] [] spec)) := by
  have h1 : isPatched c spec = Except.error KError.attributeError := by
    simp [isPatched, hres]
  refine ⟨h1, ?_, ?_⟩
  · simp [patchStatefulset, processContainers, hupd, h1]
  · intro cPresent hr2
    simp [isPatched, hr2]

/-- Witness for the claim C10 theorem at a concrete container without a
resources object, and one whose resources object has absent
dictionaries. -/
theorem resources_none_raises_witness :
    isPatched { name := "x", resources := none } [("cpu", RVal.n 4)] =
      Except.error KError.attributeError ∧
    patchStatefulset [("x", [("cpu", RVal.n 4)])]
        (GetResult.ok { containers := [{ name := "x", resources := none }] }) =
      { result := Except.error KError.attributeError, patchCalls := [] } ∧
    isPatched { name := "y", resources := some { limits := none, requests := none } }
        [("cpu", RVal.n 4)] =
      Except.ok (isMemoryPatched [] [] [("cpu", RVal.n 4)] &&
                 isCpuPatched [] [] [("cpu", RVal.n 4)]) := by
  have h := resources_none_raises { name := "x", resources := none } [("cpu", RVal.n 4)]
    [("x", [("cpu", RVal.n 4)])] rfl rfl
  exact ⟨h.1, h.2.1, h.2.2 _ rfl⟩

end KSP
